import Mathlib

/-!
Shallow embedding of `src/server.js` (Stocks-Status proxy server).

The server keeps an in-memory cache (a general-news entry plus a map from
uppercased ticker symbols to news/price entries) and serves two request
flows, `GET /api/news` and `GET /api/news/:symbol`, each of which either
serves from a valid cache entry or fetches from the upstream Finnhub API.

Modelling conventions:
* JavaScript values that flow through the cache and responses are modelled
  by the inductive `JsVal`; JS truthiness is `truthy`.
* `Date.now()` is passed in explicitly as `now : Int` (one instant per
  request).
* The upstream API is an oracle: each handler receives the
  `UpstreamResponse` (HTTP status, statusText, parsed JSON body) that the
  upstream would produce if called, and the handler result records whether
  each fetch was actually performed.
* The environment variable `FINNHUB_API_KEY` is an `Option String`;
  JS truthiness of the variable is `keyTruthy` (unset or empty is falsy).
-/

namespace StocksStatus

/-- JavaScript values relevant to this server: JSON payloads and nulls. -/
inductive JsVal where
  | vnull
  | vbool (b : Bool)
  | vnum (n : Int)
  | vstr (s : String)
  | varr (elems : List JsVal)
  | vobj (fields : List (String × JsVal))

/-- JavaScript truthiness of a `JsVal`. -/
def truthy : JsVal → Bool
  | .vnull => false
  | .vbool b => b
  | .vnum n => n != 0
  | .vstr s => s != ""
  | .varr _ => true
  | .vobj _ => true

/-- Result of a JS property access `obj.c`: accessing a property of `null`
throws a TypeError; on a non-object it yields `undefined` (here `none`);
on an object it yields the field value or `undefined` when absent. -/
inductive FieldAccess where
  | thrown
  | value (v : Option JsVal)

/-- Association lookup on a JS object's field list. -/
def lookupField : List (String × JsVal) → String → Option JsVal
  | [], _ => none
  | (k, v) :: rest, s => if k = s then some v else lookupField rest s

/-- The access `priceData.c` from the symbol handler. -/
def getFieldC : JsVal → FieldAccess
  | .vnull => .thrown
  | .vobj fields => .value (lookupField fields "c")
  | _ => .value none

/-- The coercion `Array.isArray(news) ? news : []` from the symbol handler. -/
def jsToArray : JsVal → List JsVal
  | .varr xs => xs
  | _ => []

/-- A cache entry `\x7b data, timestamp \x7d`; `data : null` is `JsVal.vnull`
and `timestamp : null` is `none`. -/
structure CacheEntry where
  data : JsVal
  timestamp : Option Int

/-- The per-symbol record `\x7b news, price \x7d` stored in `cache.symbols`. -/
structure SymbolEntry where
  news : CacheEntry
  price : CacheEntry

/-- The whole in-memory cache: `cache.general` plus `cache.symbols`,
the latter modelled as an association list keyed by symbol string. -/
structure ServerState where
  general : CacheEntry
  symbols : List (String × SymbolEntry)

/-- An entry that was never fetched: `\x7b data: null, timestamp: null \x7d`. -/
def emptyEntry : CacheEntry := { data := .vnull, timestamp := none }

/-- The record created by the lazy initialisation in the symbol handler. -/
def emptySymbolEntry : SymbolEntry := { news := emptyEntry, price := emptyEntry }

/-- The cache as initialised at process start. -/
def initialState : ServerState := { general := emptyEntry, symbols := [] }

/-- Lookup of `cache.symbols[symbol]` (`none` models `undefined`). -/
def lookupSym : List (String × SymbolEntry) → String → Option SymbolEntry
  | [], _ => none
  | (k, v) :: rest, s => if k = s then some v else lookupSym rest s

/-- Property assignment `cache.symbols[symbol] = v`: replace when present,
append otherwise. -/
def setSym : List (String × SymbolEntry) → String → SymbolEntry → List (String × SymbolEntry)
  | [], s, v => [(s, v)]
  | (k, w) :: rest, s, v => if k = s then (s, v) :: rest else (k, w) :: setSym rest s v

/-- Read of `cache.symbols[symbol]`, defaulting to the empty record for an
absent symbol (the handler lazily creates exactly this record). -/
def getSym (st : ServerState) (s : String) : SymbolEntry :=
  (lookupSym st.symbols s).getD emptySymbolEntry

/-- CACHE_TTL = 60 * 1000 milliseconds. -/
def CACHE_TTL : Int := 60 * 1000

/-- The helper `isCacheValid(cacheEntry)` at time `now`: false when the
entry itself is missing, when `cacheEntry.timestamp` is JS-falsy (absent
or the number 0), and otherwise true iff `now - timestamp < CACHE_TTL`. -/
def isCacheValid : Option CacheEntry → Int → Bool
  | none, _ => false
  | some e, now =>
    match e.timestamp with
    | none => false
    | some t => if t = 0 then false else decide (now - t < CACHE_TTL)

/-- An upstream HTTP exchange as seen by `fetch`: the response status,
its status text, and the parsed JSON body. -/
structure UpstreamResponse where
  status : Nat
  statusText : String
  body : JsVal

/-- The `response.ok` predicate of fetch: status in the range 200-299. -/
def respOk (r : UpstreamResponse) : Bool :=
  decide (200 ≤ r.status) && decide (r.status < 300)

/-- Outcome of one of the `fetch...FromFinnhub` helpers: either the parsed
body, or a thrown error carrying `error.status` and `error.message`. -/
inductive FetchOutcome where
  | ok (data : JsVal)
  | thrown (status : Nat) (message : String)

/-- The helper `fetchNewsFromFinnhub`: throws on a non-ok response, with a
dedicated message for 429, otherwise returns the parsed body. -/
def fetchNewsFromFinnhub (r : UpstreamResponse) : FetchOutcome :=
  if respOk r then .ok r.body
  else if r.status = 429 then
    .thrown 429 "Rate limit exceeded. Please try again later."
  else
    .thrown r.status ("Finnhub API error: " ++ r.statusText)

/-- The helper `fetchPriceFromFinnhub`: identical error policy. -/
def fetchPriceFromFinnhub (r : UpstreamResponse) : FetchOutcome :=
  if respOk r then .ok r.body
  else if r.status = 429 then
    .thrown 429 "Rate limit exceeded. Please try again later."
  else
    .thrown r.status ("Finnhub API error: " ++ r.statusText)

/-- The normalisation `req.params.symbol.toUpperCase()` (character-wise
uppercasing, which is what `toUpperCase` does on ASCII ticker strings). -/
def jsToUpperCase (s : String) : String := String.mk (s.data.map Char.toUpper)

/-- JS truthiness of the `FINNHUB_API_KEY` environment variable. -/
def keyTruthy : Option String → Bool
  | none => false
  | some s => s != ""

/-- The successful body of the symbol route. -/
structure SymbolResponse where
  symbol : String
  price : JsVal
  news : List JsVal
  source : String

/-- A response body sent with `res.json(...)`: a raw payload (general
route), a `SymbolResponse`, or an error object `\x7b error, message \x7d`. -/
inductive RespBody where
  | raw (v : JsVal)
  | sym (r : SymbolResponse)
  | errorObj (error : String) (message : String)

/-- An HTTP response of this server. -/
structure HttpResponse where
  status : Nat
  body : RespBody

/-- The 500 response sent when `FINNHUB_API_KEY` is falsy. -/
def configErrorResponse : HttpResponse :=
  { status := 500,
    body := .errorObj "Server configuration error"
      "FINNHUB_API_KEY environment variable is not set" }

/-- The 429 response produced by both catch blocks. -/
def rateLimitResponse : HttpResponse :=
  { status := 429,
    body := .errorObj "Rate limit exceeded" "Too many requests. Please try again later." }

/-- The catch block of the general route: `error.status === 429` maps to
the rate-limit response, otherwise `error.status || 500`. -/
def generalCatch (s : Nat) (msg : String) : HttpResponse :=
  if s = 429 then rateLimitResponse
  else { status := if s = 0 then 500 else s, body := .errorObj "Failed to fetch news" msg }

/-- The evaluation `error.status || 500`: an absent (`none`) or JS-falsy
(0) status falls back to 500. -/
def statusOr500 : Option Nat → Nat
  | none => 500
  | some s => if s = 0 then 500 else s

/-- The catch block of the symbol route; `none` models an error without a
`status` property (a TypeError), which `error.status || 500` sends as 500. -/
def symbolCatch (s? : Option Nat) (msg : String) : HttpResponse :=
  if s? = some 429 then rateLimitResponse
  else { status := statusOr500 s?, body := .errorObj "Failed to fetch news/price" msg }

/-- Result of the general route: the response, the cache afterwards, and
how many upstream calls were made. -/
structure GeneralOutcome where
  response : HttpResponse
  state : ServerState
  upstreamCalls : Nat

/-- Handler of `GET /api/news`: serve a valid cache entry, else require the
key, else fetch, write the cache on success and answer; errors go through
the catch block without touching the cache. -/
def handleGeneralNews (st : ServerState) (apiKey : Option String) (now : Int)
    (upstream : UpstreamResponse) : GeneralOutcome :=
  if isCacheValid (some st.general) now then
    { response := { status := 200, body := .raw st.general.data },
      state := st, upstreamCalls := 0 }
  else if keyTruthy apiKey then
    match fetchNewsFromFinnhub upstream with
    | .ok news =>
      { response := { status := 200, body := .raw news },
        state := { st with general := { data := news, timestamp := some now } },
        upstreamCalls := 1 }
    | .thrown s msg =>
      { response := generalCatch s msg, state := st, upstreamCalls := 1 }
  else
    { response := configErrorResponse, state := st, upstreamCalls := 0 }

/-- The lazy initialisation `if (!cache.symbols[symbol]) cache.symbols[symbol] = ...`. -/
def ensureSymbol (st : ServerState) (symbol : String) : ServerState :=
  if (lookupSym st.symbols symbol).isSome then st
  else { st with symbols := setSym st.symbols symbol emptySymbolEntry }

/-- The assignment `symbolCache.news = \x7b data, timestamp: Date.now() \x7d`. -/
def withNews (sc : SymbolEntry) (d : JsVal) (t : Int) : SymbolEntry :=
  { sc with news := { data := d, timestamp := some t } }

/-- The assignment `symbolCache.price = \x7b data, timestamp: Date.now() \x7d`. -/
def withPrice (sc : SymbolEntry) (d : JsVal) (t : Int) : SymbolEntry :=
  { sc with price := { data := d, timestamp := some t } }

/-- News sub-resolution of the symbol route: a valid cached news entry is
used as is; otherwise the company-news fetch runs and, on success, the news
entry is overwritten with the payload and a fresh timestamp. Returns the
news value, the cache afterwards and whether the upstream was hit, or the
thrown error. -/
def resolveNews (st : ServerState) (symbol : String) (now : Int)
    (newsUpstream : UpstreamResponse) :
    Except (Nat × String) (JsVal × ServerState × Bool) :=
  let sc := getSym st symbol
  if isCacheValid (some sc.news) now then
    .ok (sc.news.data, st, false)
  else
    match fetchNewsFromFinnhub newsUpstream with
    | .ok news =>
      .ok (news, { st with symbols := setSym st.symbols symbol (withNews sc news now) }, true)
    | .thrown s msg => .error (s, msg)

/-- The expression `priceData.c || null` once the field access produced a
value: a truthy field value is kept, everything falsy (including an absent
field, i.e. `undefined`) becomes null. -/
def extractPrice : Option JsVal → JsVal
  | none => .vnull
  | some v => if truthy v then v else .vnull

/-- Price sub-resolution of the symbol route: a valid cached price entry is
used as is; otherwise the quote fetch runs, `priceData.c || null` is
extracted (a TypeError surfaces as an error without a status) and the price
entry is overwritten with the extracted value and a fresh timestamp. -/
def resolvePrice (st : ServerState) (symbol : String) (now : Int)
    (quoteUpstream : UpstreamResponse) :
    Except (Option Nat × String) (JsVal × ServerState × Bool) :=
  let sc := getSym st symbol
  if isCacheValid (some sc.price) now then
    .ok (sc.price.data, st, false)
  else
    match fetchPriceFromFinnhub quoteUpstream with
    | .thrown s msg => .error (some s, msg)
    | .ok priceData =>
      match getFieldC priceData with
      | .thrown => .error (none, "Cannot read properties of null")
      | .value c? =>
        let price := extractPrice c?
        .ok (price, { st with symbols := setSym st.symbols symbol (withPrice sc price now) }, true)

/-- Result of the symbol route: the response, the cache afterwards, and
which of the two upstream fetches were performed. -/
structure SymbolOutcome where
  response : HttpResponse
  state : ServerState
  newsCalled : Bool
  priceCalled : Bool

/-- Handler of `GET /api/news/:symbol`: uppercase the symbol, lazily create
its cache record, require the key, resolve news then price (each from cache
or upstream), and assemble the combined response; a thrown error from
either sub-resolution aborts the request through the catch block, keeping
every cache write already performed. -/
def handleSymbolNews (st : ServerState) (apiKey : Option String) (rawSymbol : String)
    (now : Int) (newsUpstream quoteUpstream : UpstreamResponse) : SymbolOutcome :=
  let symbol := jsToUpperCase rawSymbol
  let st1 := ensureSymbol st symbol
  if keyTruthy apiKey then
    match resolveNews st1 symbol now newsUpstream with
    | .error (s, msg) =>
      { response := symbolCatch (some s) msg, state := st1,
        newsCalled := true, priceCalled := false }
    | .ok (news, st2, nf) =>
      match resolvePrice st2 symbol now quoteUpstream with
      | .error (s, msg) =>
        { response := symbolCatch s msg, state := st2,
          newsCalled := nf, priceCalled := true }
      | .ok (price, st3, pf) =>
        let payload : SymbolResponse :=
          { symbol := symbol, price := price, news := jsToArray news,
            source := if nf || pf then "api" else "cache" }
        { response := { status := 200, body := .sym payload },
          state := st3, newsCalled := nf, priceCalled := pf }
  else
    { response := configErrorResponse, state := st1,
      newsCalled := false, priceCalled := false }

/-- Cache states reachable from process start by any sequence of requests. -/
inductive Reachable : ServerState → Prop where
  | init : Reachable initialState
  | stepGeneral (st : ServerState) (key : Option String) (now : Int)
      (up : UpstreamResponse) : Reachable st →
      Reachable (handleGeneralNews st key now up).state
  | stepSymbol (st : ServerState) (key : Option String) (raw : String) (now : Int)
      (nUp qUp : UpstreamResponse) : Reachable st →
      Reachable (handleSymbolNews st key raw now nUp qUp).state

/-! Basic lemmas about the cache map and freshness. -/

theorem lookupSym_setSym_self (l : List (String × SymbolEntry)) (s : String)
    (v : SymbolEntry) : lookupSym (setSym l s v) s = some v := by
  induction l with
  | nil => simp [setSym, lookupSym]
  | cons p rest ih =>
    obtain ⟨k, w⟩ := p
    by_cases h : k = s
    · simp [setSym, lookupSym, h]
    · simp [setSym, lookupSym, h, ih]

theorem lookupSym_setSym_ne (l : List (String × SymbolEntry)) (s k : String)
    (v : SymbolEntry) (h : k ≠ s) : lookupSym (setSym l s v) k = lookupSym l k := by
  induction l with
  | nil => simp [setSym, lookupSym, Ne.symm h]
  | cons p rest ih =>
    obtain ⟨k', w⟩ := p
    by_cases h' : k' = s
    · subst h'
      simp [setSym, lookupSym, Ne.symm h]
    · simp [setSym, lookupSym, h', ih]

theorem getSym_set_self (st : ServerState) (s : String) (v : SymbolEntry) :
    getSym { st with symbols := setSym st.symbols s v } s = v := by
  simp [getSym, lookupSym_setSym_self]

theorem getSym_set_ne (st : ServerState) (s k : String) (v : SymbolEntry)
    (h : k ≠ s) : getSym { st with symbols := setSym st.symbols s v } k = getSym st k := by
  simp [getSym, lookupSym_setSym_ne _ _ _ _ h]

theorem ensureSymbol_general (st : ServerState) (s : String) :
    (ensureSymbol st s).general = st.general := by
  unfold ensureSymbol
  split <;> rfl

theorem getSym_ensureSymbol_self (st : ServerState) (s : String) :
    getSym (ensureSymbol st s) s = getSym st s := by
  unfold ensureSymbol
  split
  · rfl
  · rename_i h
    rw [getSym_set_self]
    cases hl : lookupSym st.symbols s with
    | none => simp [getSym, hl]
    | some v => simp [hl] at h

theorem getSym_ensureSymbol_ne (st : ServerState) (s k : String) (h : k ≠ s) :
    getSym (ensureSymbol st s) k = getSym st k := by
  unfold ensureSymbol
  split
  · rfl
  · rw [getSym_set_ne _ _ _ _ h]

theorem lookupSym_ensureSymbol_self (st : ServerState) (s : String) :
    (lookupSym (ensureSymbol st s).symbols s).isSome = true := by
  unfold ensureSymbol
  split
  · assumption
  · simp [lookupSym_setSym_self]

theorem isCacheValid_mono_false (e : CacheEntry) (t1 t2 : Int)
    (h : isCacheValid (some e) t1 = false) (h12 : t1 ≤ t2) :
    isCacheValid (some e) t2 = false := by
  obtain ⟨d, ts⟩ := e
  cases ts with
  | none => simp [isCacheValid]
  | some t =>
    by_cases ht : t = 0
    · simp [isCacheValid, ht]
    · simp only [isCacheValid, ht, if_false, decide_eq_false_iff_not, not_lt] at h ⊢
      omega

/-! Claim C4: characterisation of `isCacheValid`. -/

/-- Modelled from the spec: validity as the spec words it — true iff the
entry has a timestamp and `now - timestamp < TTL`. Used only to compare
against the implementation's `isCacheValid`. -/
def specIsValid (e : CacheEntry) (now : Int) : Bool :=
  match e.timestamp with
  | none => false
  | some t => decide (now - t < CACHE_TTL)

/-- C4: counterexample — at an entry whose timestamp is the number 0 and
`now = 10`, the claimed characterisation (timestamp present and age < TTL)
holds, yet `isCacheValid` returns false, because `!cacheEntry.timestamp`
treats the JS-falsy timestamp 0 as absent. -/
theorem C4_counterexample :
    specIsValid { data := .vnull, timestamp := some 0 } 10 = true ∧
    isCacheValid (some { data := .vnull, timestamp := some 0 }) 10 = false := by
  exact ⟨rfl, rfl⟩

/-- C4 (amended): `isCacheValid` is true iff the entry's timestamp is
present, nonzero (a 0 timestamp is JS-falsy and treated as absent), and
`now - timestamp < CACHE_TTL`; in particular it is false whenever the
timestamp is absent, and false as soon as `now - timestamp = CACHE_TTL`. -/
theorem C4_isCacheValid_characterisation (e : CacheEntry) (now : Int) :
    (isCacheValid (some e) now = true ↔
      ∃ t, e.timestamp = some t ∧ t ≠ 0 ∧ now - t < CACHE_TTL) ∧
    (e.timestamp = none → isCacheValid (some e) now = false) ∧
    (∀ t, e.timestamp = some t → now - t = CACHE_TTL →
      isCacheValid (some e) now = false) := by
  obtain ⟨d, ts⟩ := e
  cases ts with
  | none => simp [isCacheValid]
  | some t =>
    by_cases ht : t = 0
    · subst ht
      simp [isCacheValid]
    · refine ⟨?_, ?_, ?_⟩
      · simp [isCacheValid, ht]
      · intro h
        cases h
      · intro t' ht' hb
        have : t' = t := by
          cases ht'
          rfl
        subst this
        simp [isCacheValid, ht]
        omega

/-- C4: witness — an entry written at time 5 is already invalid at time
60005, exactly at age = CACHE_TTL. -/
theorem C4_witness :
    isCacheValid (some { data := JsVal.vnull, timestamp := some 5 }) 60005 = false :=
  (C4_isCacheValid_characterisation { data := JsVal.vnull, timestamp := some 5 }
    60005).2.2 5 rfl (by decide)

/-! Claim C6: valid general cache entry is served before anything else. -/

/-- C6: when the general cache entry is valid at request time, the general
route returns the cached payload directly as a raw passthrough with status
200, performs no upstream call, leaves the cache unchanged — and does so
for every value of the credential, i.e. before any credential check. -/
theorem C6_general_cache_hit (st : ServerState) (apiKey : Option String) (now : Int)
    (up : UpstreamResponse) (h : isCacheValid (some st.general) now = true) :
    handleGeneralNews st apiKey now up =
      { response := { status := 200, body := .raw st.general.data },
        state := st, upstreamCalls := 0 } := by
  simp [handleGeneralNews, h]

/-- C6: witness — a concrete valid entry served from cache with the
credential entirely absent. -/
theorem C6_witness :
    handleGeneralNews { general := { data := .varr [], timestamp := some 3 }, symbols := [] }
        none 10 { status := 500, statusText := "", body := .vnull } =
      { response := { status := 200, body := .raw (.varr []) },
        state := { general := { data := .varr [], timestamp := some 3 }, symbols := [] },
        upstreamCalls := 0 } :=
  C6_general_cache_hit
    { general := { data := .varr [], timestamp := some 3 }, symbols := [] }
    none 10 { status := 500, statusText := "", body := .vnull } rfl

/-! Claim C1: behaviour with the upstream credential unset. -/

/-- A fixed upstream response used in closed statements about paths where
the upstream must not be consulted. -/
def upNever : UpstreamResponse := { status := 200, statusText := "", body := .vnull }

/-- A state whose general cache entry is valid at time 1. -/
def stC1 : ServerState :=
  { general := { data := .varr [], timestamp := some 1 }, symbols := [] }

/-- C1: counterexample — with the credential unset but a valid general
cache entry, the general route serves the cached payload with status 200
(not the claimed ConfigurationError 500), because the cache lookup runs
before the credential check. -/
theorem C1_counterexample :
    (handleGeneralNews stC1 none 1 upNever).response.status ≠ 500 ∧
    handleGeneralNews stC1 none 1 upNever =
      { response := { status := 200, body := .raw (.varr []) },
        state := stC1, upstreamCalls := 0 } := by
  constructor
  · intro h
    have h200 : (handleGeneralNews stC1 none 1 upNever).response.status = 200 := rfl
    rw [h] at h200
    cases h200
  · rfl

/-- C1 (amended): with the credential falsy, no request path performs an
upstream call; the symbol route always answers the 500 configuration error
(whatever the cache holds), and the general route answers it whenever the
general cache entry is not valid — when that entry is valid the cached
payload is served instead (still with no upstream call). -/
theorem C1_missing_credential (st : ServerState) (raw : String) (now : Int)
    (gUp nUp qUp : UpstreamResponse) (apiKey : Option String)
    (hkey : keyTruthy apiKey = false) :
    ((handleSymbolNews st apiKey raw now nUp qUp).response = configErrorResponse ∧
      (handleSymbolNews st apiKey raw now nUp qUp).newsCalled = false ∧
      (handleSymbolNews st apiKey raw now nUp qUp).priceCalled = false) ∧
    (handleGeneralNews st apiKey now gUp).upstreamCalls = 0 ∧
    (isCacheValid (some st.general) now = false →
      (handleGeneralNews st apiKey now gUp).response = configErrorResponse) := by
  refine ⟨⟨?_, ?_, ?_⟩, ?_, ?_⟩
  · simp [handleSymbolNews, hkey]
  · simp [handleSymbolNews, hkey]
  · simp [handleSymbolNews, hkey]
  · unfold handleGeneralNews
    split
    · rfl
    · simp [hkey]
  · intro h
    simp [handleGeneralNews, h, hkey]

/-- C1: witness — from the initial (empty) cache with the variable unset,
both routes answer the configuration error and make no upstream call. -/
theorem C1_witness :
    (handleSymbolNews initialState none "AAPL" 1 upNever upNever).response =
      configErrorResponse ∧
    (handleGeneralNews initialState none 1 upNever).response = configErrorResponse ∧
    (handleGeneralNews initialState none 1 upNever).upstreamCalls = 0 := by
  refine ⟨(C1_missing_credential initialState "AAPL" 1 upNever upNever upNever none rfl).1.1,
    (C1_missing_credential initialState "AAPL" 1 upNever upNever upNever none rfl).2.2 rfl,
    (C1_missing_credential initialState "AAPL" 1 upNever upNever upNever none rfl).2.1⟩

/-! Claim C2: the data/timestamp presence invariant. -/

/-- Membership behind a successful lookup. -/
theorem lookupSym_mem (l : List (String × SymbolEntry)) (s : String) (v : SymbolEntry)
    (h : lookupSym l s = some v) : ∃ k, (k, v) ∈ l := by
  induction l with
  | nil => simp [lookupSym] at h
  | cons p rest ih =>
    obtain ⟨k, w⟩ := p
    by_cases hk : k = s
    · refine ⟨k, ?_⟩
      simp [lookupSym, hk] at h
      simp [h]
    · simp only [lookupSym, hk, if_false] at h
      obtain ⟨k', hk'⟩ := ih h
      exact ⟨k', List.mem_cons_of_mem _ hk'⟩

/-- A member of an updated map is the written pair or an old member. -/
theorem mem_setSym (l : List (String × SymbolEntry)) (s : String) (v : SymbolEntry)
    (q : String × SymbolEntry) (h : q ∈ setSym l s v) : q = (s, v) ∨ q ∈ l := by
  induction l with
  | nil =>
    simp [setSym] at h
    exact Or.inl h
  | cons p rest ih =>
    obtain ⟨k, w⟩ := p
    by_cases hk : k = s
    · subst hk
      have h' : q ∈ (k, v) :: rest := by simpa [setSym] using h
      cases h' with
      | head => exact Or.inl rfl
      | tail _ hmem => exact Or.inr (List.mem_cons_of_mem _ hmem)
    · have h' : q ∈ (k, w) :: setSym rest s v := by simpa [setSym, hk] using h
      cases h' with
      | head => exact Or.inr (List.mem_cons_self _ _)
      | tail _ hmem =>
        cases ih hmem with
        | inl h1 => exact Or.inl h1
        | inr h1 => exact Or.inr (List.mem_cons_of_mem _ h1)

/-- The direction of the claimed invariant that the code maintains: an
entry with an absent timestamp still holds null data. -/
def entryInvariant (e : CacheEntry) : Prop := e.timestamp = none → e.data = JsVal.vnull

/-- Both entries of a symbol record satisfy `entryInvariant`. -/
def symbolInvariant (se : SymbolEntry) : Prop :=
  entryInvariant se.news ∧ entryInvariant se.price

/-- The invariant over the whole cache. -/
def stateInvariant (st : ServerState) : Prop :=
  entryInvariant st.general ∧ ∀ p ∈ st.symbols, symbolInvariant p.2

theorem symbolInvariant_empty : symbolInvariant emptySymbolEntry :=
  ⟨fun _ => rfl, fun _ => rfl⟩

theorem symbolInvariant_getSym (st : ServerState) (s : String)
    (h : stateInvariant st) : symbolInvariant (getSym st s) := by
  unfold getSym
  cases hl : lookupSym st.symbols s with
  | none => exact symbolInvariant_empty
  | some v =>
    obtain ⟨k, hk⟩ := lookupSym_mem _ _ _ hl
    exact h.2 (k, v) hk

theorem stateInvariant_set (st : ServerState) (s : String) (v : SymbolEntry)
    (h : stateInvariant st) (hv : symbolInvariant v) :
    stateInvariant { st with symbols := setSym st.symbols s v } := by
  refine ⟨h.1, ?_⟩
  intro p hp
  rcases mem_setSym _ _ _ _ hp with rfl | h'
  · exact hv
  · exact h.2 p h'

theorem stateInvariant_ensureSymbol (st : ServerState) (s : String)
    (h : stateInvariant st) : stateInvariant (ensureSymbol st s) := by
  unfold ensureSymbol
  split
  · exact h
  · exact stateInvariant_set st s emptySymbolEntry h symbolInvariant_empty

/-- An entry just written by a fetch has a present timestamp, so it
satisfies the invariant vacuously. -/
theorem entryInvariant_written (d : JsVal) (now : Int) :
    entryInvariant { data := d, timestamp := some now } := by
  intro h
  cases h

theorem stateInvariant_resolveNews (st : ServerState) (s : String) (now : Int)
    (up : UpstreamResponse) (h : stateInvariant st) (n : JsVal)
    (st' : ServerState) (f : Bool)
    (hr : resolveNews st s now up = .ok (n, st', f)) : stateInvariant st' := by
  simp only [resolveNews] at hr
  split at hr
  · cases hr
    exact h
  · split at hr
    · simp only [Except.ok.injEq, Prod.mk.injEq] at hr
      obtain ⟨-, h2, -⟩ := hr
      subst h2
      refine stateInvariant_set st s _ h ?_
      exact ⟨entryInvariant_written _ _, (symbolInvariant_getSym st s h).2⟩
    · cases hr

theorem stateInvariant_resolvePrice (st : ServerState) (s : String) (now : Int)
    (up : UpstreamResponse) (h : stateInvariant st) (n : JsVal)
    (st' : ServerState) (f : Bool)
    (hr : resolvePrice st s now up = .ok (n, st', f)) : stateInvariant st' := by
  simp only [resolvePrice] at hr
  split at hr
  · cases hr
    exact h
  · split at hr
    · cases hr
    · split at hr
      · cases hr
      · simp only [Except.ok.injEq, Prod.mk.injEq] at hr
        obtain ⟨-, h2, -⟩ := hr
        subst h2
        refine stateInvariant_set st s _ h ?_
        exact ⟨(symbolInvariant_getSym st s h).1, entryInvariant_written _ _⟩

theorem stateInvariant_handleGeneralNews (st : ServerState) (key : Option String)
    (now : Int) (up : UpstreamResponse) (h : stateInvariant st) :
    stateInvariant (handleGeneralNews st key now up).state := by
  unfold handleGeneralNews
  split
  · exact h
  · split
    · split
      · exact ⟨entryInvariant_written _ _, h.2⟩
      · exact h
    · exact h

theorem stateInvariant_handleSymbolNews (st : ServerState) (key : Option String)
    (raw : String) (now : Int) (nUp qUp : UpstreamResponse) (h : stateInvariant st) :
    stateInvariant (handleSymbolNews st key raw now nUp qUp).state := by
  simp only [handleSymbolNews]
  have h1 := stateInvariant_ensureSymbol st (jsToUpperCase raw) h
  split
  · split
    · exact h1
    · rename_i news st2 nf heq
      have h2 := stateInvariant_resolveNews _ _ _ _ h1 _ _ _ heq
      split
      · exact h2
      · rename_i price st3 pf heq2
        exact stateInvariant_resolvePrice _ _ _ _ h2 _ _ _ heq2
  · exact h1

/-- Upstream responses used by the C2 counterexample: a successful news
fetch and a quote whose current price is the number 0. -/
def nOkEmpty : UpstreamResponse := { status := 200, statusText := "", body := .varr [] }

def qZero : UpstreamResponse :=
  { status := 200, statusText := "", body := .vobj [("c", .vnum 0)] }

/-- The state reached by one symbol request from the initial state with a
quote price of 0. -/
def stC2 : ServerState :=
  (handleSymbolNews initialState (some "k") "AAPL" 1 nOkEmpty qZero).state

/-- C2: counterexample — one symbol request from the initial state, whose
news fetch succeeds and whose quote carries current price 0, reaches a
state whose price entry has a present timestamp together with null data:
the claimed iff-invariant fails on a reachable state. -/
theorem C2_counterexample :
    Reachable stC2 ∧
    (getSym stC2 "AAPL").price.timestamp = some 1 ∧
    (getSym stC2 "AAPL").price.data = JsVal.vnull := by
  refine ⟨?_, rfl, rfl⟩
  exact Reachable.stepSymbol initialState (some "k") "AAPL" 1 nOkEmpty qZero Reachable.init

/-- C2 (amended): in every reachable cache state, the direction "timestamp
absent implies data absent (null)" holds for the general entry and for
every symbol's news and price entries; the converse direction of the
claimed iff fails, because a falsy quote price is stored as null data
under a fresh timestamp. -/
theorem C2_invariant_reachable (st : ServerState) (h : Reachable st) :
    stateInvariant st := by
  induction h with
  | init => exact ⟨fun _ => rfl, by intro p hp; cases hp⟩
  | stepGeneral st key now up _ ih => exact stateInvariant_handleGeneralNews st key now up ih
  | stepSymbol st key raw now nUp qUp _ ih =>
    exact stateInvariant_handleSymbolNews st key raw now nUp qUp ih

/-- C2: witness — the invariant holds at the initial cache state. -/
theorem C2_witness : stateInvariant initialState :=
  C2_invariant_reachable initialState Reachable.init

/-! Steering lemmas for the symbol route. -/

theorem fetchPrice_eq_fetchNews : fetchPriceFromFinnhub = fetchNewsFromFinnhub := rfl

theorem respOk_of_429 (up : UpstreamResponse) (h : up.status = 429) :
    respOk up = false := by
  simp [respOk, h]

theorem ensureSymbol_of_isSome (st : ServerState) (s : String)
    (h : (lookupSym st.symbols s).isSome = true) : ensureSymbol st s = st := by
  simp [ensureSymbol, h]

/-- The cache after the news entry of `s` is overwritten with payload `d`
at time `t`. -/
def newsWrittenState (st : ServerState) (s : String) (d : JsVal) (t : Int) : ServerState :=
  { st with symbols := setSym st.symbols s (withNews (getSym st s) d t) }

/-- The cache after the price entry of `s` is overwritten with value `d`
at time `t`. -/
def priceWrittenState (st : ServerState) (s : String) (d : JsVal) (t : Int) : ServerState :=
  { st with symbols := setSym st.symbols s (withPrice (getSym st s) d t) }

theorem getSym_newsWrittenState_self (st : ServerState) (s : String) (d : JsVal) (t : Int) :
    getSym (newsWrittenState st s d t) s = withNews (getSym st s) d t :=
  getSym_set_self st s _

theorem getSym_priceWrittenState_self (st : ServerState) (s : String) (d : JsVal) (t : Int) :
    getSym (priceWrittenState st s d t) s = withPrice (getSym st s) d t :=
  getSym_set_self st s _

theorem resolveNews_cached (st : ServerState) (s : String) (now : Int)
    (up : UpstreamResponse) (h : isCacheValid (some (getSym st s).news) now = true) :
    resolveNews st s now up = .ok ((getSym st s).news.data, st, false) := by
  simp [resolveNews, h]

theorem resolveNews_fetch_ok (st : ServerState) (s : String) (now : Int)
    (up : UpstreamResponse) (h : isCacheValid (some (getSym st s).news) now = false)
    (hok : respOk up = true) :
    resolveNews st s now up = .ok (up.body, newsWrittenState st s up.body now, true) := by
  simp [resolveNews, h, fetchNewsFromFinnhub, hok, newsWrittenState]

theorem resolveNews_fetch_thrown (st : ServerState) (s : String) (now : Int)
    (up : UpstreamResponse) (h : isCacheValid (some (getSym st s).news) now = false)
    (he : respOk up = false) :
    resolveNews st s now up =
      .error (if up.status = 429 then 429 else up.status,
              if up.status = 429 then "Rate limit exceeded. Please try again later."
              else "Finnhub API error: " ++ up.statusText) := by
  by_cases h429 : up.status = 429
  · simp [resolveNews, h, fetchNewsFromFinnhub, he, h429]
  · simp [resolveNews, h, fetchNewsFromFinnhub, he, h429]

theorem resolvePrice_cached (st : ServerState) (s : String) (now : Int)
    (up : UpstreamResponse) (h : isCacheValid (some (getSym st s).price) now = true) :
    resolvePrice st s now up = .ok ((getSym st s).price.data, st, false) := by
  simp [resolvePrice, h]

theorem resolvePrice_fetch_ok (st : ServerState) (s : String) (now : Int)
    (up : UpstreamResponse) (c? : Option JsVal)
    (h : isCacheValid (some (getSym st s).price) now = false)
    (hok : respOk up = true) (hc : getFieldC up.body = .value c?) :
    resolvePrice st s now up =
      .ok (extractPrice c?, priceWrittenState st s (extractPrice c?) now, true) := by
  simp [resolvePrice, h, fetchPriceFromFinnhub, hok, hc, priceWrittenState]

theorem resolvePrice_fetch_thrown (st : ServerState) (s : String) (now : Int)
    (up : UpstreamResponse) (h : isCacheValid (some (getSym st s).price) now = false)
    (he : respOk up = false) :
    resolvePrice st s now up =
      .error (some (if up.status = 429 then 429 else up.status),
              if up.status = 429 then "Rate limit exceeded. Please try again later."
              else "Finnhub API error: " ++ up.statusText) := by
  by_cases h429 : up.status = 429
  · simp [resolvePrice, h, fetchPriceFromFinnhub, he, h429]
  · simp [resolvePrice, h, fetchPriceFromFinnhub, he, h429]

theorem resolveNews_ok_general (st : ServerState) (s : String) (now : Int)
    (up : UpstreamResponse) (n : JsVal) (st' : ServerState) (f : Bool)
    (hr : resolveNews st s now up = .ok (n, st', f)) : st'.general = st.general := by
  simp only [resolveNews] at hr
  split at hr
  · cases hr
    rfl
  · split at hr
    · simp only [Except.ok.injEq, Prod.mk.injEq] at hr
      obtain ⟨-, h2, -⟩ := hr
      subst h2
      rfl
    · cases hr

theorem resolvePrice_ok_general (st : ServerState) (s : String) (now : Int)
    (up : UpstreamResponse) (n : JsVal) (st' : ServerState) (f : Bool)
    (hr : resolvePrice st s now up = .ok (n, st', f)) : st'.general = st.general := by
  simp only [resolvePrice] at hr
  split at hr
  · cases hr
    rfl
  · split at hr
    · cases hr
    · split at hr
      · cases hr
      · simp only [Except.ok.injEq, Prod.mk.injEq] at hr
        obtain ⟨-, h2, -⟩ := hr
        subst h2
        rfl

theorem resolveNews_ok_getSym_ne (st : ServerState) (s k : String) (now : Int)
    (up : UpstreamResponse) (n : JsVal) (st' : ServerState) (f : Bool)
    (hr : resolveNews st s now up = .ok (n, st', f)) (hk : k ≠ s) :
    getSym st' k = getSym st k := by
  simp only [resolveNews] at hr
  split at hr
  · cases hr
    rfl
  · split at hr
    · simp only [Except.ok.injEq, Prod.mk.injEq] at hr
      obtain ⟨-, h2, -⟩ := hr
      subst h2
      exact getSym_set_ne _ _ _ _ hk
    · cases hr

theorem resolvePrice_ok_getSym_ne (st : ServerState) (s k : String) (now : Int)
    (up : UpstreamResponse) (n : JsVal) (st' : ServerState) (f : Bool)
    (hr : resolvePrice st s now up = .ok (n, st', f)) (hk : k ≠ s) :
    getSym st' k = getSym st k := by
  simp only [resolvePrice] at hr
  split at hr
  · cases hr
    rfl
  · split at hr
    · cases hr
    · split at hr
      · cases hr
      · simp only [Except.ok.injEq, Prod.mk.injEq] at hr
        obtain ⟨-, h2, -⟩ := hr
        subst h2
        exact getSym_set_ne _ _ _ _ hk

theorem resolvePrice_ok_fetched (st : ServerState) (s : String) (now : Int)
    (up : UpstreamResponse) (n : JsVal) (st' : ServerState) (f : Bool)
    (h : isCacheValid (some (getSym st s).price) now = false)
    (hr : resolvePrice st s now up = .ok (n, st', f)) : f = true := by
  simp only [resolvePrice] at hr
  split at hr
  · rename_i hc
    rw [h] at hc
    exact Bool.noConfusion hc
  · split at hr
    · cases hr
    · split at hr
      · cases hr
      · simp only [Except.ok.injEq, Prod.mk.injEq] at hr
        exact hr.2.2.symm

/-- Unfolding of the symbol handler once the credential check passed. -/
theorem handleSymbolNews_eq_of_key (st : ServerState) (key : Option String)
    (raw : String) (now : Int) (nUp qUp : UpstreamResponse)
    (hkey : keyTruthy key = true) :
    handleSymbolNews st key raw now nUp qUp =
      (match resolveNews (ensureSymbol st (jsToUpperCase raw)) (jsToUpperCase raw) now nUp with
       | .error (s, msg) =>
         { response := symbolCatch (some s) msg,
           state := ensureSymbol st (jsToUpperCase raw),
           newsCalled := true, priceCalled := false }
       | .ok (news, st2, nf) =>
         match resolvePrice st2 (jsToUpperCase raw) now qUp with
         | .error (s, msg) =>
           { response := symbolCatch s msg, state := st2,
             newsCalled := nf, priceCalled := true }
         | .ok (price, st3, pf) =>
           { response := { status := 200,
                           body := .sym ⟨jsToUpperCase raw, price, jsToArray news,
                                         if nf || pf then "api" else "cache"⟩ },
             state := st3, newsCalled := nf, priceCalled := pf }) := by
  simp [handleSymbolNews, hkey]

/-! Claim C5: the source field of a successful symbol response. -/

/-- The symbol catch block always produces an error-object body. -/
theorem symbolCatch_body (s? : Option Nat) (msg : String) :
    ∃ e m, (symbolCatch s? msg).body = .errorObj e m := by
  unfold symbolCatch
  split
  · exact ⟨_, _, rfl⟩
  · exact ⟨_, _, rfl⟩

/-- C5: whenever a symbol request produces a successful (`SymbolResponse`)
body, its source field is "api" iff at least one of the two
sub-resolutions hit the upstream during this call, and "cache" iff both
news and price were served from valid cache entries. -/
theorem C5_source_field (st : ServerState) (key : Option String) (raw : String)
    (now : Int) (nUp qUp : UpstreamResponse) (sp : SymbolResponse)
    (h : (handleSymbolNews st key raw now nUp qUp).response.body = .sym sp) :
    (sp.source = "api" ↔
      ((handleSymbolNews st key raw now nUp qUp).newsCalled = true ∨
       (handleSymbolNews st key raw now nUp qUp).priceCalled = true)) ∧
    (sp.source = "cache" ↔
      ((handleSymbolNews st key raw now nUp qUp).newsCalled = false ∧
       (handleSymbolNews st key raw now nUp qUp).priceCalled = false)) := by
  cases hkey : keyTruthy key with
  | false =>
    simp [handleSymbolNews, hkey, configErrorResponse] at h
  | true =>
    rw [handleSymbolNews_eq_of_key st key raw now nUp qUp hkey] at h ⊢
    cases hrn : resolveNews (ensureSymbol st (jsToUpperCase raw)) (jsToUpperCase raw) now nUp with
    | error e =>
      obtain ⟨s, msg⟩ := e
      rw [hrn] at h
      dsimp only [] at h
      obtain ⟨e', m', hb⟩ := symbolCatch_body (some s) msg
      rw [hb] at h
      exact RespBody.noConfusion h
    | ok v =>
      obtain ⟨news, st2, nf⟩ := v
      rw [hrn] at h
      dsimp only [] at h
      dsimp only []
      cases hrp : resolvePrice st2 (jsToUpperCase raw) now qUp with
      | error e =>
        obtain ⟨s, msg⟩ := e
        rw [hrp] at h
        dsimp only [] at h
        obtain ⟨e', m', hb⟩ := symbolCatch_body s msg
        rw [hb] at h
        exact RespBody.noConfusion h
      | ok v2 =>
        obtain ⟨price, st3, pf⟩ := v2
        rw [hrp] at h
        dsimp only [] at h
        dsimp only []
        injection h with h'
        subst h'
        cases nf <;> cases pf <;> simp

/-- Upstream quote used by witnesses exercising a truthy price. -/
def qFive : UpstreamResponse :=
  { status := 200, statusText := "", body := .vobj [("c", .vnum 5)] }

/-- C5: witness — a cold-cache request fetched both sub-resources, and its
source field is "api". -/
theorem C5_witness :
    (⟨"AAPL", JsVal.vnum 5, [], "api"⟩ : SymbolResponse).source = "api" ↔
      ((handleSymbolNews initialState (some "k") "AAPL" 1 nOkEmpty qFive).newsCalled = true ∨
       (handleSymbolNews initialState (some "k") "AAPL" 1 nOkEmpty qFive).priceCalled = true) :=
  (C5_source_field initialState (some "k") "AAPL" 1 nOkEmpty qFive
    ⟨"AAPL", JsVal.vnum 5, [], "api"⟩ rfl).1

/-! Claim C10: resolution order and frame conditions of the symbol route. -/

/-- C10: a symbol request never changes the general entry nor any other
symbol's entries; and when the news resolution goes upstream and that
fetch fails, the price fetch is never attempted and the requested
symbol's price entry keeps exactly its previous data and timestamp. -/
theorem C10_order_and_frame (st : ServerState) (key : Option String) (raw : String)
    (now : Int) (nUp qUp : UpstreamResponse) :
    (handleSymbolNews st key raw now nUp qUp).state.general = st.general ∧
    (∀ k, k ≠ jsToUpperCase raw →
      getSym (handleSymbolNews st key raw now nUp qUp).state k = getSym st k) ∧
    (keyTruthy key = true →
      isCacheValid (some (getSym st (jsToUpperCase raw)).news) now = false →
      respOk nUp = false →
      (handleSymbolNews st key raw now nUp qUp).priceCalled = false ∧
      (getSym (handleSymbolNews st key raw now nUp qUp).state (jsToUpperCase raw)).price =
        (getSym st (jsToUpperCase raw)).price) := by
  refine ⟨?_, ?_, ?_⟩
  · cases hkey : keyTruthy key with
    | false =>
      simp only [handleSymbolNews, hkey, Bool.false_eq_true, if_false]
      exact ensureSymbol_general st _
    | true =>
      rw [handleSymbolNews_eq_of_key st key raw now nUp qUp hkey]
      cases hrn : resolveNews (ensureSymbol st (jsToUpperCase raw)) (jsToUpperCase raw) now nUp with
      | error e =>
        obtain ⟨s, msg⟩ := e
        exact ensureSymbol_general st _
      | ok v =>
        obtain ⟨news, st2, nf⟩ := v
        have h2 : st2.general = st.general := by
          rw [resolveNews_ok_general _ _ _ _ _ _ _ hrn]
          exact ensureSymbol_general st _
        dsimp only []
        cases hrp : resolvePrice st2 (jsToUpperCase raw) now qUp with
        | error e =>
          obtain ⟨s, msg⟩ := e
          exact h2
        | ok v2 =>
          obtain ⟨price, st3, pf⟩ := v2
          dsimp only []
          rw [resolvePrice_ok_general _ _ _ _ _ _ _ hrp]
          exact h2
  · intro k hk
    cases hkey : keyTruthy key with
    | false =>
      simp only [handleSymbolNews, hkey, Bool.false_eq_true, if_false]
      exact getSym_ensureSymbol_ne st _ k hk
    | true =>
      rw [handleSymbolNews_eq_of_key st key raw now nUp qUp hkey]
      cases hrn : resolveNews (ensureSymbol st (jsToUpperCase raw)) (jsToUpperCase raw) now nUp with
      | error e =>
        obtain ⟨s, msg⟩ := e
        exact getSym_ensureSymbol_ne st _ k hk
      | ok v =>
        obtain ⟨news, st2, nf⟩ := v
        have h2 : getSym st2 k = getSym st k := by
          rw [resolveNews_ok_getSym_ne _ _ _ _ _ _ _ _ hrn hk]
          exact getSym_ensureSymbol_ne st _ k hk
        dsimp only []
        cases hrp : resolvePrice st2 (jsToUpperCase raw) now qUp with
        | error e =>
          obtain ⟨s, msg⟩ := e
          exact h2
        | ok v2 =>
          obtain ⟨price, st3, pf⟩ := v2
          dsimp only []
          rw [resolvePrice_ok_getSym_ne _ _ _ _ _ _ _ _ hrp hk]
          exact h2
  · intro hkey hnews herr
    have hnews1 : isCacheValid
        (some (getSym (ensureSymbol st (jsToUpperCase raw)) (jsToUpperCase raw)).news) now
        = false := by
      rw [getSym_ensureSymbol_self]
      exact hnews
    rw [handleSymbolNews_eq_of_key st key raw now nUp qUp hkey,
      resolveNews_fetch_thrown _ _ _ _ hnews1 herr]
    refine ⟨rfl, ?_⟩
    rw [getSym_ensureSymbol_self]

/-- C10: witness — a cold-cache symbol request whose news fetch fails with
a 500: the price fetch is skipped and the price entry is untouched. -/
theorem C10_witness :
    (handleSymbolNews initialState (some "k") "AAPL" 1
        { status := 500, statusText := "err", body := .vnull } upNever).priceCalled = false ∧
    (getSym (handleSymbolNews initialState (some "k") "AAPL" 1
        { status := 500, statusText := "err", body := .vnull } upNever).state
      (jsToUpperCase "AAPL")).price = (getSym initialState (jsToUpperCase "AAPL")).price :=
  (C10_order_and_frame initialState (some "k") "AAPL" 1
    { status := 500, statusText := "err", body := .vnull } upNever).2.2 rfl rfl rfl

/-! Claim C9: falsy quote prices are coerced to null. -/

/-- C9: whenever a symbol request actually fetches the price from the
quote endpoint — the news having been resolved either from a valid cache
entry or by a successful fetch in the same request, with the price entry
invalid — a falsy current-price field value (absent, 0, null, false, the
empty string, ...) is coerced to null both in the response's price field
and in the stored price cache entry. -/
theorem C9_falsy_price_null (st : ServerState) (key : Option String) (raw : String)
    (now : Int) (nUp qUp : UpstreamResponse) (c? : Option JsVal)
    (hkey : keyTruthy key = true)
    (hnews : isCacheValid (some (getSym st (jsToUpperCase raw)).news) now = true ∨
      (isCacheValid (some (getSym st (jsToUpperCase raw)).news) now = false ∧
        respOk nUp = true))
    (hprice : isCacheValid (some (getSym st (jsToUpperCase raw)).price) now = false)
    (hok : respOk qUp = true)
    (hc : getFieldC qUp.body = .value c?)
    (hfalsy : ∀ v, c? = some v → truthy v = false) :
    (∃ sp, (handleSymbolNews st key raw now nUp qUp).response.body = .sym sp ∧
      sp.price = JsVal.vnull ∧ sp.source = "api") ∧
    (getSym (handleSymbolNews st key raw now nUp qUp).state (jsToUpperCase raw)).price =
      { data := JsVal.vnull, timestamp := some now } := by
  have hext : extractPrice c? = .vnull := by
    cases hc' : c? with
    | none => rfl
    | some v => simp [extractPrice, hfalsy v hc']
  cases hnews with
  | inl hnv =>
    have hnews1 : isCacheValid
        (some (getSym (ensureSymbol st (jsToUpperCase raw)) (jsToUpperCase raw)).news) now
        = true := by
      rw [getSym_ensureSymbol_self]
      exact hnv
    have hprice1 : isCacheValid
        (some (getSym (ensureSymbol st (jsToUpperCase raw)) (jsToUpperCase raw)).price) now
        = false := by
      rw [getSym_ensureSymbol_self]
      exact hprice
    rw [handleSymbolNews_eq_of_key st key raw now nUp qUp hkey,
      resolveNews_cached _ _ _ _ hnews1]
    dsimp only []
    rw [resolvePrice_fetch_ok _ _ _ _ _ hprice1 hok hc]
    dsimp only []
    rw [hext, getSym_priceWrittenState_self]
    exact ⟨⟨_, rfl, rfl, rfl⟩, rfl⟩
  | inr hpair =>
    obtain ⟨hni, hnok⟩ := hpair
    have hnews1 : isCacheValid
        (some (getSym (ensureSymbol st (jsToUpperCase raw)) (jsToUpperCase raw)).news) now
        = false := by
      rw [getSym_ensureSymbol_self]
      exact hni
    have hprice2 : isCacheValid
        (some (getSym
          (newsWrittenState (ensureSymbol st (jsToUpperCase raw)) (jsToUpperCase raw)
            nUp.body now)
          (jsToUpperCase raw)).price) now = false := by
      rw [getSym_newsWrittenState_self]
      show isCacheValid
        (some (getSym (ensureSymbol st (jsToUpperCase raw)) (jsToUpperCase raw)).price) now
        = false
      rw [getSym_ensureSymbol_self]
      exact hprice
    rw [handleSymbolNews_eq_of_key st key raw now nUp qUp hkey,
      resolveNews_fetch_ok _ _ _ _ hnews1 hnok]
    dsimp only []
    rw [resolvePrice_fetch_ok _ _ _ _ _ hprice2 hok hc]
    dsimp only []
    rw [hext, getSym_priceWrittenState_self]
    exact ⟨⟨_, rfl, rfl, rfl⟩, rfl⟩

/-- The quote response carrying a genuine current price of 0, used by the
C9 witness. -/
def qZeroW : UpstreamResponse :=
  { status := 200, statusText := "", body := .vobj [("c", .vnum 0)] }

/-- A state whose AAPL news entry is valid at time 10 and whose price
entry was never fetched. -/
def stC9 : ServerState :=
  { general := emptyEntry,
    symbols := [("AAPL", { news := { data := .varr [], timestamp := some 5 },
                           price := emptyEntry })] }

/-- C9: witness — a quote price equal to the number 0 is served and cached
as null, both on a cold cache (news freshly fetched in the same request)
and with a valid cached news entry. -/
theorem C9_witness :
    ((∃ sp, (handleSymbolNews initialState (some "k") "AAPL" 1 nOkEmpty qZeroW).response.body =
        .sym sp ∧ sp.price = JsVal.vnull ∧ sp.source = "api") ∧
      (getSym (handleSymbolNews initialState (some "k") "AAPL" 1 nOkEmpty qZeroW).state
        (jsToUpperCase "AAPL")).price = { data := JsVal.vnull, timestamp := some 1 }) ∧
    ((∃ sp, (handleSymbolNews stC9 (some "k") "AAPL" 10 upNever qZeroW).response.body =
        .sym sp ∧ sp.price = JsVal.vnull ∧ sp.source = "api") ∧
      (getSym (handleSymbolNews stC9 (some "k") "AAPL" 10 upNever qZeroW).state
        (jsToUpperCase "AAPL")).price = { data := JsVal.vnull, timestamp := some 10 }) := by
  constructor
  · exact C9_falsy_price_null initialState (some "k") "AAPL" 1 nOkEmpty qZeroW (some (.vnum 0))
      rfl (Or.inr ⟨rfl, rfl⟩) rfl rfl rfl (fun v hv => by cases hv; rfl)
  · exact C9_falsy_price_null stC9 (some "k") "AAPL" 10 upNever qZeroW (some (.vnum 0))
      rfl (Or.inl rfl) rfl rfl rfl (fun v hv => by cases hv; rfl)

/-! Claim C3: a news cache write survives a subsequent price failure. -/

/-- C3: in the symbol flow, when the news fetch succeeds and the following
price fetch fails, the request answers an error body but the news entry
keeps the freshly written payload and timestamp; a second request for the
same symbol within the TTL then serves the cached news without calling the
news endpoint and re-attempts only the price fetch. -/
theorem C3_news_survives_price_failure (st : ServerState) (key : Option String)
    (raw : String) (t1 t2 : Int) (n1 q1 n2 q2 : UpstreamResponse)
    (hkey : keyTruthy key = true)
    (hnews : isCacheValid (some (getSym st (jsToUpperCase raw)).news) t1 = false)
    (hprice : isCacheValid (some (getSym st (jsToUpperCase raw)).price) t1 = false)
    (hok : respOk n1 = true)
    (herr : respOk q1 = false)
    (ht0 : 0 < t1) (hle : t1 ≤ t2) (hfresh : t2 - t1 < CACHE_TTL) :
    (∃ e m, (handleSymbolNews st key raw t1 n1 q1).response.body = .errorObj e m) ∧
    (getSym (handleSymbolNews st key raw t1 n1 q1).state (jsToUpperCase raw)).news =
      { data := n1.body, timestamp := some t1 } ∧
    (handleSymbolNews (handleSymbolNews st key raw t1 n1 q1).state key raw t2 n2 q2).newsCalled
      = false ∧
    (handleSymbolNews (handleSymbolNews st key raw t1 n1 q1).state key raw t2 n2 q2).priceCalled
      = true ∧
    (∀ sp,
      (handleSymbolNews (handleSymbolNews st key raw t1 n1 q1).state key raw t2 n2 q2).response.body
        = .sym sp → sp.news = jsToArray n1.body) := by
  have hnews1 : isCacheValid
      (some (getSym (ensureSymbol st (jsToUpperCase raw)) (jsToUpperCase raw)).news) t1
      = false := by
    rw [getSym_ensureSymbol_self]
    exact hnews
  have hget : getSym
      (newsWrittenState (ensureSymbol st (jsToUpperCase raw)) (jsToUpperCase raw) n1.body t1)
      (jsToUpperCase raw) =
      withNews (getSym (ensureSymbol st (jsToUpperCase raw)) (jsToUpperCase raw)) n1.body t1 :=
    getSym_newsWrittenState_self _ _ _ _
  have hprice2 : isCacheValid
      (some (getSym
        (newsWrittenState (ensureSymbol st (jsToUpperCase raw)) (jsToUpperCase raw) n1.body t1)
        (jsToUpperCase raw)).price) t1 = false := by
    rw [hget]
    show isCacheValid
      (some (getSym (ensureSymbol st (jsToUpperCase raw)) (jsToUpperCase raw)).price) t1 = false
    rw [getSym_ensureSymbol_self]
    exact hprice
  have h1 : handleSymbolNews st key raw t1 n1 q1 =
      { response := symbolCatch (some (if q1.status = 429 then 429 else q1.status))
          (if q1.status = 429 then "Rate limit exceeded. Please try again later."
           else "Finnhub API error: " ++ q1.statusText),
        state := newsWrittenState (ensureSymbol st (jsToUpperCase raw)) (jsToUpperCase raw)
          n1.body t1,
        newsCalled := true, priceCalled := true } := by
    rw [handleSymbolNews_eq_of_key st key raw t1 n1 q1 hkey,
      resolveNews_fetch_ok _ _ _ _ hnews1 hok]
    dsimp only []
    rw [resolvePrice_fetch_thrown _ _ _ _ hprice2 herr]
  rw [h1]
  dsimp only []
  refine ⟨symbolCatch_body _ _, ?_, ?_⟩
  · rw [hget]
    rfl
  · have hsome : (lookupSym
        (newsWrittenState (ensureSymbol st (jsToUpperCase raw)) (jsToUpperCase raw)
          n1.body t1).symbols (jsToUpperCase raw)).isSome = true := by
      simp [newsWrittenState, lookupSym_setSym_self]
    have hens := ensureSymbol_of_isSome _ _ hsome
    have hvalid : isCacheValid
        (some (getSym (ensureSymbol
          (newsWrittenState (ensureSymbol st (jsToUpperCase raw)) (jsToUpperCase raw) n1.body t1)
          (jsToUpperCase raw)) (jsToUpperCase raw)).news) t2 = true := by
      rw [hens, hget]
      show isCacheValid (some { data := n1.body, timestamp := some t1 }) t2 = true
      simp only [isCacheValid]
      rw [if_neg (by omega)]
      simp only [decide_eq_true_eq]
      exact hfresh
    have hpinv : isCacheValid
        (some (getSym (ensureSymbol
          (newsWrittenState (ensureSymbol st (jsToUpperCase raw)) (jsToUpperCase raw) n1.body t1)
          (jsToUpperCase raw)) (jsToUpperCase raw)).price) t2 = false := by
      rw [hens]
      exact isCacheValid_mono_false _ t1 t2 hprice2 hle
    rw [handleSymbolNews_eq_of_key _ key raw t2 n2 q2 hkey,
      resolveNews_cached _ _ _ _ hvalid]
    dsimp only []
    cases hrp : resolvePrice
        (ensureSymbol
          (newsWrittenState (ensureSymbol st (jsToUpperCase raw)) (jsToUpperCase raw) n1.body t1)
          (jsToUpperCase raw))
        (jsToUpperCase raw) t2 q2 with
    | error e =>
      obtain ⟨s, msg⟩ := e
      dsimp only []
      refine ⟨rfl, rfl, ?_⟩
      intro sp hsp
      obtain ⟨e2, m2, hb⟩ := symbolCatch_body s msg
      rw [hb] at hsp
      exact RespBody.noConfusion hsp
    | ok v =>
      obtain ⟨price, st3, pf⟩ := v
      have hpf : pf = true := resolvePrice_ok_fetched _ _ _ _ _ _ _ hpinv hrp
      subst hpf
      dsimp only []
      refine ⟨rfl, rfl, ?_⟩
      intro sp hsp
      injection hsp with hq
      rw [← hq]
      dsimp only []
      rw [hens, hget]
      rfl


/-- C3: witness — from a cold cache, a request at time 1 with a successful
news fetch and a 503 quote failure leaves the fresh news entry in place;
the follow-up at time 2 does not call the news endpoint but does attempt
the price fetch. -/
theorem C3_witness :
    (getSym (handleSymbolNews initialState (some "k") "AAPL" 1 nOkEmpty
        { status := 503, statusText := "unavailable", body := .vnull }).state
      (jsToUpperCase "AAPL")).news =
      { data := nOkEmpty.body, timestamp := some 1 } ∧
    (handleSymbolNews
      (handleSymbolNews initialState (some "k") "AAPL" 1 nOkEmpty
        { status := 503, statusText := "unavailable", body := .vnull }).state
      (some "k") "AAPL" 2 upNever qFive).newsCalled = false ∧
    (handleSymbolNews
      (handleSymbolNews initialState (some "k") "AAPL" 1 nOkEmpty
        { status := 503, statusText := "unavailable", body := .vnull }).state
      (some "k") "AAPL" 2 upNever qFive).priceCalled = true := by
  have h := C3_news_survives_price_failure initialState (some "k") "AAPL" 1 2 nOkEmpty
    { status := 503, statusText := "unavailable", body := .vnull } upNever qFive
    rfl rfl rfl rfl rfl (by decide) (by decide) (by decide)
  exact ⟨h.2.1, h.2.2.1, h.2.2.2.1⟩

/-! Claim C7: mapping of upstream statuses to overall response statuses. -/

/-- C7: an upstream 429 on any of the three fetch sites (general news,
company news, quote) surfaces as an overall 429 response with category
"Rate limit exceeded"; any other non-success upstream status (a real HTTP
status, hence at least 100) is mirrored as the overall response status
with the corresponding error body. -/
theorem C7_upstream_status_mapping (st : ServerState) (key : Option String) (raw : String)
    (now : Int) (gUp nUp qUp : UpstreamResponse)
    (hkey : keyTruthy key = true) :
    (isCacheValid (some st.general) now = false →
      (gUp.status = 429 →
        (handleGeneralNews st key now gUp).response = rateLimitResponse) ∧
      (respOk gUp = false → gUp.status ≠ 429 → 100 ≤ gUp.status →
        (handleGeneralNews st key now gUp).response =
          { status := gUp.status,
            body := .errorObj "Failed to fetch news"
              ("Finnhub API error: " ++ gUp.statusText) })) ∧
    (isCacheValid (some (getSym st (jsToUpperCase raw)).news) now = false →
      (nUp.status = 429 →
        (handleSymbolNews st key raw now nUp qUp).response = rateLimitResponse) ∧
      (respOk nUp = false → nUp.status ≠ 429 → 100 ≤ nUp.status →
        (handleSymbolNews st key raw now nUp qUp).response =
          { status := nUp.status,
            body := .errorObj "Failed to fetch news/price"
              ("Finnhub API error: " ++ nUp.statusText) })) ∧
    ((isCacheValid (some (getSym st (jsToUpperCase raw)).news) now = true ∨
        (isCacheValid (some (getSym st (jsToUpperCase raw)).news) now = false ∧
          respOk nUp = true)) →
      isCacheValid (some (getSym st (jsToUpperCase raw)).price) now = false →
      (qUp.status = 429 →
        (handleSymbolNews st key raw now nUp qUp).response = rateLimitResponse) ∧
      (respOk qUp = false → qUp.status ≠ 429 → 100 ≤ qUp.status →
        (handleSymbolNews st key raw now nUp qUp).response =
          { status := qUp.status,
            body := .errorObj "Failed to fetch news/price"
              ("Finnhub API error: " ++ qUp.statusText) })) := by
  refine ⟨?_, ?_, ?_⟩
  · intro hinv
    constructor
    · intro h429
      have hko : respOk gUp = false := respOk_of_429 _ h429
      simp [handleGeneralNews, hinv, hkey, fetchNewsFromFinnhub, hko, h429, generalCatch]
    · intro he hne hge
      have hne0 : ¬ gUp.status = 0 := by omega
      simp [handleGeneralNews, hinv, hkey, fetchNewsFromFinnhub, he, hne, hne0, generalCatch]
  · intro hinv
    have hinv1 : isCacheValid
        (some (getSym (ensureSymbol st (jsToUpperCase raw)) (jsToUpperCase raw)).news) now
        = false := by
      rw [getSym_ensureSymbol_self]
      exact hinv
    constructor
    · intro h429
      have hko : respOk nUp = false := respOk_of_429 _ h429
      rw [handleSymbolNews_eq_of_key st key raw now nUp qUp hkey,
        resolveNews_fetch_thrown _ _ _ _ hinv1 hko]
      dsimp only []
      simp [symbolCatch, h429]
    · intro he hne hge
      have hne0 : ¬ nUp.status = 0 := by omega
      rw [handleSymbolNews_eq_of_key st key raw now nUp qUp hkey,
        resolveNews_fetch_thrown _ _ _ _ hinv1 he]
      dsimp only []
      simp [symbolCatch, hne, statusOr500, hne0]
  · intro hnd hpi
    have hmain : respOk qUp = false →
        (handleSymbolNews st key raw now nUp qUp).response =
          symbolCatch (some (if qUp.status = 429 then 429 else qUp.status))
            (if qUp.status = 429 then "Rate limit exceeded. Please try again later."
             else "Finnhub API error: " ++ qUp.statusText) := by
      intro hqe
      cases hnd with
      | inl hnv =>
        have hnv1 : isCacheValid
            (some (getSym (ensureSymbol st (jsToUpperCase raw)) (jsToUpperCase raw)).news) now
            = true := by
          rw [getSym_ensureSymbol_self]
          exact hnv
        have hpi1 : isCacheValid
            (some (getSym (ensureSymbol st (jsToUpperCase raw)) (jsToUpperCase raw)).price) now
            = false := by
          rw [getSym_ensureSymbol_self]
          exact hpi
        rw [handleSymbolNews_eq_of_key st key raw now nUp qUp hkey,
          resolveNews_cached _ _ _ _ hnv1]
        dsimp only []
        rw [resolvePrice_fetch_thrown _ _ _ _ hpi1 hqe]
      | inr hpair =>
        obtain ⟨hni, hnok⟩ := hpair
        have hni1 : isCacheValid
            (some (getSym (ensureSymbol st (jsToUpperCase raw)) (jsToUpperCase raw)).news) now
            = false := by
          rw [getSym_ensureSymbol_self]
          exact hni
        have hpi2 : isCacheValid
            (some (getSym
              (newsWrittenState (ensureSymbol st (jsToUpperCase raw)) (jsToUpperCase raw)
                nUp.body now)
              (jsToUpperCase raw)).price) now = false := by
          rw [getSym_newsWrittenState_self]
          show isCacheValid
            (some (getSym (ensureSymbol st (jsToUpperCase raw)) (jsToUpperCase raw)).price) now
            = false
          rw [getSym_ensureSymbol_self]
          exact hpi
        rw [handleSymbolNews_eq_of_key st key raw now nUp qUp hkey,
          resolveNews_fetch_ok _ _ _ _ hni1 hnok]
        dsimp only []
        rw [resolvePrice_fetch_thrown _ _ _ _ hpi2 hqe]
    constructor
    · intro h429
      rw [hmain (respOk_of_429 _ h429)]
      simp [symbolCatch, h429]
    · intro he hne hge
      have hne0 : ¬ qUp.status = 0 := by omega
      rw [hmain he]
      simp [symbolCatch, hne, statusOr500, hne0]

/-- Upstream responses used by the C7 witness. -/
def up429 : UpstreamResponse :=
  { status := 429, statusText := "Too Many Requests", body := .vnull }

def up404 : UpstreamResponse :=
  { status := 404, statusText := "Not Found", body := .vnull }

/-- C7: witness — a 429 from the general endpoint answers the rate-limit
response, a 404 from the company-news endpoint is mirrored as 404, and a
429 from the quote endpoint right after a successful news fetch in the
same cold-cache request also answers the rate-limit response. -/
theorem C7_witness :
    (handleGeneralNews initialState (some "k") 1 up429).response = rateLimitResponse ∧
    (handleSymbolNews initialState (some "k") "AAPL" 1 up404 upNever).response =
      { status := 404,
        body := .errorObj "Failed to fetch news/price"
          ("Finnhub API error: " ++ up404.statusText) } ∧
    (handleSymbolNews initialState (some "k") "AAPL" 1 nOkEmpty up429).response =
      rateLimitResponse := by
  have h := C7_upstream_status_mapping initialState (some "k") "AAPL" 1 up429 up404 upNever rfl
  have h2 := C7_upstream_status_mapping initialState (some "k") "AAPL" 1 up429 nOkEmpty up429 rfl
  exact ⟨(h.1 rfl).1 rfl, (h.2.1 rfl).2 rfl (by decide) (by decide),
    (h2.2.2 (Or.inr ⟨rfl, rfl⟩) rfl).1 rfl⟩

/-! Claim C8: idempotence of consecutive general-news requests within TTL. -/

/-- C8: after a general-news request that fetched from the upstream and
wrote the cache at time `t1`, a second request at any time `t2` within the
TTL window returns the identical response, performs zero upstream calls
and leaves the cache state unchanged. -/
theorem C8_general_idempotent (st : ServerState) (key : Option String) (t1 t2 : Int)
    (up1 up2 : UpstreamResponse)
    (h1 : isCacheValid (some st.general) t1 = false)
    (hkey : keyTruthy key = true)
    (hok : respOk up1 = true)
    (ht0 : 0 < t1) (hfresh : t2 - t1 < CACHE_TTL) :
    (handleGeneralNews (handleGeneralNews st key t1 up1).state key t2 up2).response =
      (handleGeneralNews st key t1 up1).response ∧
    (handleGeneralNews (handleGeneralNews st key t1 up1).state key t2 up2).upstreamCalls = 0 ∧
    (handleGeneralNews (handleGeneralNews st key t1 up1).state key t2 up2).state =
      (handleGeneralNews st key t1 up1).state := by
  have e1 : handleGeneralNews st key t1 up1 =
      { response := { status := 200, body := .raw up1.body },
        state := { st with general := { data := up1.body, timestamp := some t1 } },
        upstreamCalls := 1 } := by
    simp [handleGeneralNews, h1, hkey, fetchNewsFromFinnhub, hok]
  rw [e1]
  have hv : isCacheValid
      (some ({ st with general := { data := up1.body, timestamp := some t1 } }
        : ServerState).general) t2 = true := by
    show isCacheValid (some { data := up1.body, timestamp := some t1 }) t2 = true
    simp only [isCacheValid]
    rw [if_neg (by omega)]
    simp only [decide_eq_true_eq]
    exact hfresh
  refine ⟨?_, ?_, ?_⟩ <;> simp [handleGeneralNews, hv]

/-- C8: witness — a cold-cache fetch at time 1 followed by a request at
time 2 within the TTL: the second call hits no upstream and repeats the
response. -/
theorem C8_witness :
    (handleGeneralNews (handleGeneralNews initialState (some "k") 1 nOkEmpty).state
      (some "k") 2 upNever).upstreamCalls = 0 ∧
    (handleGeneralNews (handleGeneralNews initialState (some "k") 1 nOkEmpty).state
      (some "k") 2 upNever).response =
      (handleGeneralNews initialState (some "k") 1 nOkEmpty).response := by
  have h := C8_general_idempotent initialState (some "k") 1 2 nOkEmpty upNever rfl rfl rfl
    (by decide) (by decide)
  exact ⟨h.2.1, h.1⟩

end StocksStatus
